import Mathlib

/-!
Shallow embedding of the ortools-poc scheduling engine.

Sources embedded here (paths relative to the repository root):
* `app/models/mobility_assistance.py` — the `MobilityAssistanceType` enum.
* `app/models/inout.py` — the `Booking`, `Trip` and response models.
* `app/services/scheduler/__init__.py` / `app/services/scheduler/greedy_scheduler.py`
  — `SchedulerContext`, `TripInfo`, `ShuttleInfo`, `GreedyScheduler`.
* `app/services/scheduler/cp_sat_scheduler.py` — the CP connection-constraint
  generation and the solver-status handling.
* `app/services/direction.py`, `app/models/direction.py` — the composite
  direction fetch and the direction-cache CRUD.
* `app/models/task.py` — the task store's `get_pending_tasks` (claim batch).
* `app/routers/schedule.py` — the synchronous scheduling endpoint.

Modelling conventions: `datetime` instants are integers (seconds); a duration
of `s` seconds is integer addition.  Python float fields that are only carried
through unchanged (latitudes, fees, …) are modelled as opaque integers, since
no arithmetic is ever performed on them.  Fallible calls return `Option` or
`Except`.  The external routing provider is a parameter
`d : String → String → Option Int` giving the travel duration in seconds
between two addresses (`none` = no route).
-/

namespace OrtoolsPoc

/-- MobilityAssistanceType from `app/models/mobility_assistance.py`:
variants AMBULATORY ("AMBI"), WHEELCHAIR ("WC"), STRETCHER ("GUR"). -/
inductive MobilityAssistanceType where
  | AMBULATORY
  | WHEELCHAIR
  | STRETCHER
deriving DecidableEq, Repr

/-- The enum's string value. -/
def MobilityAssistanceType.value : MobilityAssistanceType → String
  | .AMBULATORY => "AMBI"
  | .WHEELCHAIR => "WC"
  | .STRETCHER => "GUR"

/-- `MobilityAssistanceType.priority`: 0 = highest (STRETCHER), 2 = lowest. -/
def MobilityAssistanceType.priority : MobilityAssistanceType → Nat
  | .STRETCHER => 0
  | .WHEELCHAIR => 1
  | .AMBULATORY => 2

/-- `MobilityAssistanceType.compatible`: a vehicle type serves a booking type
iff they are equal or the booking is AMBULATORY. -/
def MobilityAssistanceType.compatible
    (v b : MobilityAssistanceType) : Bool :=
  v.value == b.value || b == .AMBULATORY

/-- `MobilityAssistanceType.from_string`: STRETCHER|GUR and WHEELCHAIR|WC are
recognized (case-insensitively); everything else is AMBULATORY. -/
def MobilityAssistanceType.from_string (s : String) : MobilityAssistanceType :=
  let u := s.toUpper
  if u = "STRETCHER" ∨ u = "GUR" then .STRETCHER
  else if u = "WHEELCHAIR" ∨ u = "WC" then .WHEELCHAIR
  else .AMBULATORY

/-- `MobilityAssistanceType.from_strings`: the first argument that does not
parse to AMBULATORY wins; otherwise AMBULATORY. -/
def MobilityAssistanceType.from_strings :
    List String → MobilityAssistanceType
  | [] => .AMBULATORY
  | a :: rest =>
    let one := MobilityAssistanceType.from_string a
    if one ≠ .AMBULATORY then one else MobilityAssistanceType.from_strings rest

/-- Booking from `app/models/inout.py` (all fields).  `HH:MM` strings stay
strings; float-valued passthrough fields are opaque integers. -/
structure Booking where
  booking_id : String
  passenger_id : String
  passenger_firstname : String
  passenger_lastname : String
  additional_passenger : Int
  mobility_assistance : List String
  program_name : String
  pickup_time : String
  pickup_address : String
  dropoff_address : String
  ride_status : Int
  passenger_phone : Option String := none
  pickup_address_id : Option String := none
  pickup_latitude : Option Int := none
  pickup_longitude : Option Int := none
  pickup_account_id : Option String := none
  dropoff_address_id : Option String := none
  dropoff_latitude : Option Int := none
  dropoff_longitude : Option Int := none
  dropoff_account_id : Option String := none
  scheduled_pickup_time : Option String := none
  scheduled_dropoff_time : Option String := none
  actual_pickup_time : Option String := none
  actual_dropoff_time : Option String := none
  driver_arrival_time : Option String := none
  driver_enroute_time : Option String := none
  travel_time : Option Int := none
  travel_distance : Option Int := none
  ride_fee : Option Int := none
  total_addl_fee_usd_cents : Option Int := none
  payment : Option String := none
  insurance_account_id : Option String := none
  payment_complete : Option Bool := none
  admin_note : Option String := none
  trip_id : Option String := none
  trip_complete : Option Bool := none
  program_id : Option String := none
  program_timezone : Option String := none
  driver_note : Option String := none
  office_note : Option String := none
  flag : Option Bool := none
  willcall_call_time : Option Int := none
  total_seat_count : Option Int := none
deriving DecidableEq, Repr

/-- Direction result as consumed by the schedulers (`distance_in_meter`,
`duration_in_sec`). -/
structure DirectionR where
  distance_in_meter : Int
  duration_in_sec : Int
deriving DecidableEq, Repr

/-- SchedulerContext configuration (`before_pickup_in_sec`,
`after_pickup_in_sec`, `dropoff_unloading_in_sec`, each either the request
override or the 300-second default). -/
structure Ctx where
  before_pickup_in_sec : Int
  after_pickup_in_sec : Int
  dropoff_unloading_in_sec : Int
deriving DecidableEq, Repr

/-- TripInfo from `app/services/scheduler/__init__.py`: a booking together
with the resolved pickup instant, the leg's distance/duration, and the
mutable scheduling fields `is_last`, `adjusted_pickup_time`,
`earliest_arrival_time`. -/
structure TripInfo where
  booking : Booking
  pickup_address : String
  dropoff_address : String
  passenger : String
  assistance : MobilityAssistanceType
  pickup_time : Int
  distance_in_meter : Int
  duration_in_sec : Int
  is_last : Bool
  adjusted_pickup_time : Option Int
  earliest_arrival_time : Option Int
deriving DecidableEq, Repr

/-- `TripInfo.__init__`: copies addresses, derives the passenger key
(passenger id, or first+last name when the id is empty), parses mobility
assistance, and writes the travel info back onto the booking. -/
def TripInfo.init (booking : Booking) (pickup_time : Int)
    (direction : DirectionR) : TripInfo :=
  { booking := { booking with
      travel_distance := some direction.distance_in_meter
      travel_time := some direction.duration_in_sec }
    pickup_address := booking.pickup_address
    dropoff_address := booking.dropoff_address
    passenger :=
      if booking.passenger_id ≠ "" then booking.passenger_id
      else booking.passenger_firstname ++ " " ++ booking.passenger_lastname
    assistance := MobilityAssistanceType.from_strings booking.mobility_assistance
    pickup_time := pickup_time
    distance_in_meter := direction.distance_in_meter
    duration_in_sec := direction.duration_in_sec
    is_last := false
    adjusted_pickup_time := none
    earliest_arrival_time := none }

/-- `TripInfo.latest_pickup_time`: the pickup instant, delayed by
`after_pickup_in_sec` for a last (return) trip. -/
def latest_pickup_time (c : Ctx) (t : TripInfo) : Int :=
  if t.is_last then t.pickup_time + c.after_pickup_in_sec else t.pickup_time

/-- `TripInfo.dropoff_time`: adjusted pickup (or the booked pickup when no
adjustment was made) plus the leg duration. -/
def dropoff_time (t : TripInfo) : Int :=
  t.adjusted_pickup_time.getD t.pickup_time + t.duration_in_sec

/-- `TripInfo.finish_time`: dropoff plus the unloading allowance. -/
def finish_time (c : Ctx) (t : TripInfo) : Int :=
  dropoff_time t + c.dropoff_unloading_in_sec

/-- `Scheduler._get_trips_from_bookings` body for one booking: build the
TripInfo and initialize `earliest_arrival_time` to pickup − before_pickup. -/
def getTripFromBooking (c : Ctx) (b : Booking) (pickup_time : Int)
    (direction : DirectionR) : TripInfo :=
  let t := TripInfo.init b pickup_time direction
  { t with earliest_arrival_time := some (pickup_time - c.before_pickup_in_sec) }

/-- ShuttleInfo from the greedy scheduler: a 1-based index and the ordered
trips assigned so far. -/
structure ShuttleInfo where
  idx : Nat
  trips : List TripInfo
deriving DecidableEq, Repr

/-- `GreedyScheduler._is_trip_fit`: returns the estimated arrival at the next
trip's pickup when the shuttle can take it, `none` otherwise. -/
def is_trip_fit (c : Ctx) (d : String → String → Option Int)
    (shuttle : ShuttleInfo) (next_trip : TripInfo) : Option Int :=
  match shuttle.trips.getLast? with
  | none => none
  | some last_trip =>
    if finish_time c last_trip > latest_pickup_time c next_trip then none
    else if last_trip.dropoff_address = next_trip.pickup_address then
      some (finish_time c last_trip)
    else
      match d last_trip.dropoff_address next_trip.pickup_address with
      | none => none
      | some dur =>
        if finish_time c last_trip + dur > latest_pickup_time c next_trip
        then none
        else some (finish_time c last_trip + dur)

/-- `GreedyScheduler._is_better`: when already past the threshold (pickup for
a last trip, pickup − before_pickup otherwise) earlier is better, else later
is better. -/
def is_better (c : Ctx) (coming current : Int) (trip : TripInfo) : Bool :=
  if trip.is_last then
    if current > trip.pickup_time then coming < current else coming > current
  else
    if current > trip.pickup_time - c.before_pickup_in_sec then coming < current
    else coming > current

/-- The shuttle-selection loop of `GreedyScheduler._schedule_trips`:
walk the plan keeping the best (shuttle index, arrival) fit so far. -/
def bestShuttleAux (c : Ctx) (d : String → String → Option Int)
    (trip : TripInfo) :
    List ShuttleInfo → Nat → Option (Nat × Int) → Option (Nat × Int)
  | [], _, best => best
  | s :: rest, i, best =>
    let best' :=
      match is_trip_fit c d s trip, best with
      | none, b => b
      | some a, none => some (i, a)
      | some a, some (bi, ba) =>
        if is_better c a ba trip then some (i, a) else some (bi, ba)
    bestShuttleAux c d trip rest (i + 1) best'

/-- Best shuttle for a trip over the whole current plan. -/
def bestShuttle (c : Ctx) (d : String → String → Option Int)
    (plan : List ShuttleInfo) (trip : TripInfo) : Option (Nat × Int) :=
  bestShuttleAux c d trip plan 0 none

/-- `ShuttleInfo.add_trip` applied at position `j` of the plan. -/
def addToShuttle : List ShuttleInfo → Nat → TripInfo → List ShuttleInfo
  | [], _, _ => []
  | s :: rest, 0, t => { s with trips := s.trips ++ [t] } :: rest
  | s :: rest, j + 1, t => s :: addToShuttle rest j t

/-- One iteration of `GreedyScheduler._schedule_trips`: find the best shuttle;
append the trip there (recording `earliest_arrival_time := best_arrival`) or
open a new shuttle; then set `adjusted_pickup_time` to the booked pickup when
the arrival is absent or earlier, and to the arrival otherwise. -/
def scheduleTrip (c : Ctx) (d : String → String → Option Int)
    (plan : List ShuttleInfo) (trip : TripInfo) : List ShuttleInfo :=
  match bestShuttle c d plan trip with
  | none =>
    plan ++ [{ idx := plan.length + 1,
               trips := [{ trip with adjusted_pickup_time := some trip.pickup_time }] }]
  | some (j, arr) =>
    addToShuttle plan j
      { trip with
        earliest_arrival_time := some arr
        adjusted_pickup_time :=
          some (if arr < trip.pickup_time then trip.pickup_time else arr) }

/-- `GreedyScheduler._schedule_trips` over a bucket of trips. -/
def scheduleTrips (c : Ctx) (d : String → String → Option Int)
    (plan : List ShuttleInfo) (trips : List TripInfo) : List ShuttleInfo :=
  trips.foldl (scheduleTrip c d) plan

/-- Insertion into the passenger dictionary: append to the existing group or
open a fresh one at the end (Python dict insertion order). -/
def insertGrouped (gs : List (String × List (Nat × TripInfo))) (k : String)
    (x : Nat × TripInfo) : List (String × List (Nat × TripInfo)) :=
  match gs with
  | [] => [(k, [x])]
  | (k', l) :: rest =>
    if k' = k then (k', l ++ [x]) :: rest
    else (k', l) :: insertGrouped rest k x

/-- Build the passenger groups by iterating the (indexed) trips. -/
def buildGroups (l : List (Nat × TripInfo)) :
    List (String × List (Nat × TripInfo)) :=
  l.foldl (fun gs x => insertGrouped gs x.2.passenger x) []

/-- Positions receiving `is_last := true`: the final element (`[-1]`) of each
passenger group with more than one trip. -/
def lastIdsOf (sorted : List TripInfo) : List Nat :=
  (buildGroups sorted.enum.reverse).filterMap
    (fun g => if 1 < g.2.length then (g.2.getLast?).map Prod.fst else none)

/-- Positions receiving `earliest_arrival_time := pickup`: the head (`[0]`)
of each passenger group with more than one trip. -/
def firstIdsOf (sorted : List TripInfo) : List Nat :=
  (buildGroups sorted.enum.reverse).filterMap
    (fun g => if 1 < g.2.length then (g.2.head?).map Prod.fst else none)

/-- The `is_last := true` mutation when the position is selected. -/
def markLast (lastIds : List Nat) (i : Nat) (t : TripInfo) : TripInfo :=
  if lastIds.contains i then { t with is_last := true } else t

/-- The `earliest_arrival_time := pickup` mutation when the position is
selected. -/
def markFirst (firstIds : List Nat) (i : Nat) (t : TripInfo) : TripInfo :=
  if firstIds.contains i then
    { t with earliest_arrival_time := some t.pickup_time }
  else t

/-- Apply the two last-leg mutations to the trip at a given position. -/
def applyMarks (lastIds firstIds : List Nat) (p : Nat × TripInfo) : TripInfo :=
  markFirst firstIds p.1 (markLast lastIds p.1 p.2)

/-- `Scheduler._mark_last_leg`: sort trips by pickup instant, group by
passenger iterating the sorted list in reverse (so each group is
latest-first), then for each passenger with more than one trip set
`is_last := true` on the group's final element and `earliest_arrival_time`
to the pickup instant on the group's first element.  Object identity of the
Python trips is modelled by their position in the sorted list; Python's
stable `list.sort` is modelled by the stable insertion sort, which computes
the same list. -/
def markLastLeg (trips : List TripInfo) : List TripInfo :=
  let sorted := trips.insertionSort (fun a b => a.pickup_time ≤ b.pickup_time)
  sorted.enum.map (applyMarks (lastIdsOf sorted) (firstIdsOf sorted))

/-- `GreedyScheduler._get_priority_trips`: partition into the three priority
buckets, preserving order within a bucket. -/
def get_priority_trips (trips : List TripInfo) : List (List TripInfo) :=
  [trips.filter (fun t => t.assistance.priority == 0),
   trips.filter (fun t => t.assistance.priority == 1),
   trips.filter (fun t => t.assistance.priority == 2)]

/-- `GreedyScheduler._calculate` after the booking conversion: mark last legs,
bucket by priority, and schedule each bucket in order into a shared plan. -/
def calculate (c : Ctx) (d : String → String → Option Int)
    (trips : List TripInfo) : List ShuttleInfo :=
  let marked := markLastLeg trips
  (get_priority_trips marked).foldl (scheduleTrips c d) []

/-- All trips of a plan, shuttles in order. -/
def planTrips (plan : List ShuttleInfo) : List TripInfo :=
  (plan.map ShuttleInfo.trips).flatten

/-- `strftime("%H:%M")` on an instant modelled as seconds of the day. -/
def to_24hr (t : Int) : String :=
  let h := t.fdiv 3600
  let m := (t - 3600 * h).fdiv 60
  (if h < 10 then "0" ++ toString h else toString h) ++ ":" ++
    (if m < 10 then "0" ++ toString m else toString m)

/-- `strftime("%I:%M %p")` on an instant modelled as seconds of the day. -/
def to_12hr (t : Int) : String :=
  let h24 := t.fdiv 3600
  let m := (t - 3600 * h24).fdiv 60
  let h := if h24 % 12 = 0 then 12 else h24 % 12
  (if h < 10 then "0" ++ toString h else toString h) ++ ":" ++
    (if m < 10 then "0" ++ toString m else toString m) ++
    (if h24 < 12 then " AM" else " PM")

/-- Trip output model from `app/models/inout.py` (the debug-only `short`
keyword argument passed by `to_trip` has no corresponding model field and is
not modelled). -/
structure Trip where
  trip_id : Option String := none
  program_id : Option String := none
  program_name : String
  program_timezone : Option String := none
  first_pickup_time : String
  last_dropoff_time : String
  driver_id : Option String := none
  driver_firstname : Option String := none
  driver_lastname : Option String := none
  driver_team_id : Option String := none
  driver_team_name : Option String := none
  driver_team : Option String := none
  driver_action : Option String := none
  first_pickup_address : String
  first_pickup_latitude : Option Int := none
  first_pickup_longitude : Option Int := none
  last_dropoff_address : String
  last_dropoff_latitude : Option Int := none
  last_dropoff_longitude : Option Int := none
  notes : Option String := none
  number_of_passengers : Int
  trip_complete : Option Bool := none
  bookings : List Booking
deriving DecidableEq, Repr

/-- `TripInfo.to_trip`: clear the four actual/driver time fields on the
booking, set the scheduled pickup/dropoff strings, and build the Trip from
the booking's data. -/
def to_trip (t : TripInfo) : Trip :=
  let booking := { t.booking with
    actual_dropoff_time := none
    actual_pickup_time := none
    driver_arrival_time := none
    driver_enroute_time := none
    scheduled_pickup_time :=
      some (to_24hr (t.adjusted_pickup_time.getD t.pickup_time))
    scheduled_dropoff_time := some (to_24hr (dropoff_time t)) }
  { bookings := [booking]
    trip_id := booking.trip_id
    program_id := booking.program_id
    program_name := booking.program_name
    program_timezone := booking.program_timezone
    first_pickup_address := booking.pickup_address
    first_pickup_latitude := booking.pickup_latitude
    first_pickup_longitude := booking.pickup_longitude
    last_dropoff_address := booking.dropoff_address
    last_dropoff_latitude := booking.dropoff_latitude
    last_dropoff_longitude := booking.dropoff_longitude
    first_pickup_time := to_12hr (t.adjusted_pickup_time.getD t.pickup_time)
    last_dropoff_time := to_12hr (dropoff_time t)
    notes := booking.admin_note
    number_of_passengers := 1 + booking.additional_passenger
    trip_complete := booking.trip_complete }

/-! ## CP scheduler (`app/services/scheduler/cp_sat_scheduler.py`) -/

/-- `CpSatScheduler._time_to_minutes` (`time.hour * 60 + time.minute`) on an
instant modelled as seconds of the day. -/
def timeToMinutes (t : Int) : Int :=
  t.fdiv 60

/-- A conditional precedence constraint
`t[vehicle, j2] ≥ t[vehicle, j1] + service_time` enforced when
`x[vehicle, j1] ∧ x[vehicle, j2]`. -/
structure CpConstraint where
  vehicle : Nat
  j1 : Nat
  j2 : Nat
  service_time : Int
deriving DecidableEq, Repr

/-- Constraint 5 of `CpSatScheduler._calculate` ("connection between trips"):
for every vehicle and ordered pair of distinct trip indices, when
`latest_pickup` minutes of the second strictly exceed `finish_time` minutes
of the first and the cross travel lookup succeeds, add
`t[i, j2] ≥ t[i, j1] + (duration(j1) + travel) // 60`. -/
def connectionConstraints (c : Ctx) (d : String → String → Option Int)
    (num_vehicles : Nat) (trips : List TripInfo) : List CpConstraint :=
  (List.range num_vehicles).flatMap (fun i =>
    trips.enum.flatMap (fun p1 =>
      trips.enum.filterMap (fun p2 =>
        if p1.1 = p2.1 then none
        else
          let finish_time_j1 := timeToMinutes (finish_time c p1.2)
          let pickup_time_j2 := timeToMinutes (latest_pickup_time c p2.2)
          if pickup_time_j2 > finish_time_j1 then
            match d p1.2.dropoff_address p2.2.pickup_address with
            | some dur =>
              some ⟨i, p1.1, p2.1, (p1.2.duration_in_sec + dur).fdiv 60⟩
            | none => none
          else none)))

/-- Terminal solver statuses of the CP-SAT solver (a timeout surfaces as
UNKNOWN). -/
inductive CpStatus where
  | OPTIMAL
  | FEASIBLE
  | INFEASIBLE
  | MODEL_INVALID
  | UNKNOWN
deriving DecidableEq, Repr

/-- Status display name as interpolated into the ValueError message. -/
def CpStatus.name : CpStatus → String
  | .OPTIMAL => "OPTIMAL"
  | .FEASIBLE => "FEASIBLE"
  | .INFEASIBLE => "INFEASIBLE"
  | .MODEL_INVALID => "MODEL_INVALID"
  | .UNKNOWN => "UNKNOWN"

/-- The status handling at the end of `CpSatScheduler._calculate`: extract
the shuttles on OPTIMAL or FEASIBLE, otherwise raise
`ValueError("No feasible solution found, Status: ...")`. -/
def cpSolveShuttles (status : CpStatus) (shuttles : List ShuttleInfo) :
    Except String (List ShuttleInfo) :=
  if status = .OPTIMAL ∨ status = .FEASIBLE then .ok shuttles
  else .error ("No feasible solution found, Status: " ++ status.name)

/-- ScheduleResult from `app/models/inout.py`.  `data` is an `Option` here so
that the spec's "data = null" is expressible; the source model requires the
field and the success constructor always supplies a value. -/
structure ScheduleResult where
  status : String
  error_code : Int
  message : String
  data : Option (List ShuttleInfo)
deriving DecidableEq, Repr

/-- ScheduleResponse wrapper. -/
structure ScheduleResponse where
  result : ScheduleResult
deriving DecidableEq, Repr

/-- `Scheduler._get_response`: the success response built around the computed
shuttles. -/
def get_response (shuttles : List ShuttleInfo) : ScheduleResponse :=
  ⟨⟨"success", 0, "Successfully retrieved trips data.", some shuttles⟩⟩

/-- What the synchronous scheduling endpoint hands back: either a JSON
ScheduleResponse or an HTTP error status with a detail message. -/
inductive EndpointResult where
  | response (r : ScheduleResponse)
  | httpError (status_code : Nat) (detail : String)
deriving DecidableEq, Repr

/-- `create_task` in `app/routers/schedule.py`: return the scheduler's
response, converting a raised ValueError into HTTP 400 with the message. -/
def schedule_endpoint (r : Except String (List ShuttleInfo)) : EndpointResult :=
  match r with
  | .ok shuttles => .response (get_response shuttles)
  | .error e => .httpError 400 e

/-- The endpoint outcome when the CP scheduler's solve ends with `status`. -/
def cp_schedule_endpoint (status : CpStatus) (shuttles : List ShuttleInfo) :
    EndpointResult :=
  schedule_endpoint (cpSolveShuttles status shuttles)

/-! ## Direction cache (`app/services/direction.py`, `app/models/direction.py`) -/

/-- A stored document of the `directions` collection. -/
structure CacheEntry where
  key : String
  distance_in_meter : Int
  duration_in_sec : Int
  created_at : Int
deriving DecidableEq, Repr

/-- `DirectionCRUD.generate_key`. -/
def generate_key (origin destination : String) : String :=
  origin ++ "|" ++ destination

/-- `DirectionCRUD.get_direction`: find the document by key and return its
distance/duration; no other filter is applied. -/
def crud_get_direction (store : List CacheEntry) (origin destination : String) :
    Option DirectionR :=
  match store.find? (fun e => e.key == generate_key origin destination) with
  | some e => some ⟨e.distance_in_meter, e.duration_in_sec⟩
  | none => none

/-- `DirectionCRUD.create_direction`: upsert on the key, stamping
`created_at := now`. -/
def crud_create_direction (store : List CacheEntry) (origin destination : String)
    (dist dur now : Int) : List CacheEntry :=
  let k := generate_key origin destination
  if store.any (fun e => e.key == k) then
    store.map (fun e => if e.key == k then ⟨k, dist, dur, now⟩ else e)
  else store ++ [⟨k, dist, dur, now⟩]

/-- One leg of a routing-provider response. -/
structure Leg where
  distance : Int
  duration : Int
deriving DecidableEq, Repr

/-- `get_direction` from `app/services/direction.py`: cache lookup; on a hit
return the cached pair; on a miss invoke the provider (whose reply for this
query is the `provider` leg list); an empty reply raises ValueError and
nothing is cached; a non-empty reply is stored (stamped `now`) and returned.
The result is (outcome, cache after the call, whether the provider was
invoked). -/
def get_direction (store : List CacheEntry) (provider : List Leg)
    (origin destination : String) (now : Int) :
    Except String DirectionR × List CacheEntry × Bool :=
  match crud_get_direction store origin destination with
  | some cached => (.ok cached, store, false)
  | none =>
    match provider with
    | [] => (.error "No route found between the specified locations", store, true)
    | leg :: _ =>
      (.ok ⟨leg.distance, leg.duration⟩,
       crud_create_direction store origin destination leg.distance leg.duration now,
       true)

/-- `DIRECTION_CACHE_TTL_SECONDS` default from `app/services/database.py`. -/
def DIRECTION_CACHE_TTL_SECONDS : Int := 3600

/-- Reading the direction cache at wall-clock instant `now`:
`DirectionCRUD.get_direction` queries by key only and never compares
`created_at` with the clock, so the outcome does not depend on `now`. -/
def lookup_at (store : List CacheEntry) (origin destination : String)
    (_now : Int) : Option DirectionR :=
  crud_get_direction store origin destination

/-- Modelled from the spec: the background reaper of the backing store's TTL
index on `created_at` (created by `setup_indexes` in
`app/services/database.py`) deletes the documents whose age exceeds the TTL;
the repository's own read path performs no such deletion. -/
def reap_expired (ttl now : Int) (store : List CacheEntry) : List CacheEntry :=
  store.filter (fun e => decide (now < e.created_at + ttl))

/-! ## Task store (`app/models/task.py`) -/

/-- TaskStatus enumeration. -/
inductive TaskStatus where
  | PENDING
  | PROCESSING
  | COMPLETED
  | FAILED
deriving DecidableEq, Repr

/-- A stored task (only the fields `get_pending_tasks` touches). -/
structure Task where
  id : String
  status : TaskStatus
deriving DecidableEq, Repr

/-- The find phase of `TaskCRUD.get_pending_tasks`: ids of up to `limit`
PENDING tasks. -/
def find_pending_ids (store : List Task) (limit : Nat) : List String :=
  ((store.filter (fun t => t.status == .PENDING)).take limit).map Task.id

/-- The update phase of `TaskCRUD.get_pending_tasks`: `update_many` setting
status PROCESSING on every task whose id is in `ids`. -/
def mark_processing (store : List Task) (ids : List String) : List Task :=
  store.map (fun t =>
    if ids.contains t.id then { t with status := .PROCESSING } else t)

/-- `TaskCRUD.get_pending_tasks`: find the PENDING batch, then mark it
PROCESSING — two separate store operations run in sequence. -/
def get_pending_tasks (store : List Task) (limit : Nat) :
    List String × List Task :=
  let ids := find_pending_ids store limit
  (ids, mark_processing store ids)

/-- Two concurrent `get_pending_tasks` calls interleaved so that both find
phases run before either update phase — an interleaving the two-operation
implementation permits.  Returns (ids of call 1, ids of call 2, final
store). -/
def claim_batch_interleaved (store : List Task) (limit1 limit2 : Nat) :
    List String × List String × List Task :=
  let ids1 := find_pending_ids store limit1
  let ids2 := find_pending_ids store limit2
  let s1 := mark_processing store ids1
  let s2 := mark_processing s1 ids2
  (ids1, ids2, s2)

/-! ## Verification layer: greedy-scheduler invariants -/

/-- The feasibility relation between two consecutive trips of a shuttle: the
first's finish plus the cross travel (zero for a shared address) is within
the second's latest pickup. -/
def travelOK (c : Ctx) (d : String → String → Option Int)
    (a b : TripInfo) : Prop :=
  if a.dropoff_address = b.pickup_address then
    finish_time c a ≤ latest_pickup_time c b
  else
    ∃ dur, d a.dropoff_address b.pickup_address = some dur ∧
      finish_time c a + dur ≤ latest_pickup_time c b

/-- Every shuttle's trip list is chained by `travelOK`. -/
def PlanOK (c : Ctx) (d : String → String → Option Int)
    (plan : List ShuttleInfo) : Prop :=
  ∀ s ∈ plan, List.Chain' (travelOK c d) s.trips

theorem mem_planTrips {plan : List ShuttleInfo} {t : TripInfo} :
    t ∈ planTrips plan ↔ ∃ s ∈ plan, t ∈ s.trips := by
  simp [planTrips, List.mem_flatten, List.mem_map]

theorem is_trip_fit_travelOK {c : Ctx} {d : String → String → Option Int}
    {shuttle : ShuttleInfo} {next_trip : TripInfo} {arr : Int}
    (h : is_trip_fit c d shuttle next_trip = some arr) :
    ∃ last, shuttle.trips.getLast? = some last ∧ travelOK c d last next_trip := by
  unfold is_trip_fit at h
  split at h
  · exact absurd h (by simp)
  next last hl =>
    split at h
    · exact absurd h (by simp)
    next hfin =>
      split at h
      next haddr =>
        exact ⟨last, hl, by
          unfold travelOK
          rw [if_pos haddr]
          exact le_of_not_lt hfin⟩
      next haddr =>
        split at h
        · exact absurd h (by simp)
        next dur hd =>
          split at h
          · exact absurd h (by simp)
          next harr =>
            exact ⟨last, hl, by
              unfold travelOK
              rw [if_neg haddr]
              exact ⟨dur, hd, le_of_not_lt harr⟩⟩

theorem bestShuttleAux_eq_some (c : Ctx) (d : String → String → Option Int)
    (trip : TripInfo) :
    ∀ (l : List ShuttleInfo) (i : Nat) (acc : Option (Nat × Int))
      (j : Nat) (a : Int),
      bestShuttleAux c d trip l i acc = some (j, a) →
      acc = some (j, a) ∨
        ∃ k s, l[k]? = some s ∧ is_trip_fit c d s trip = some a ∧ j = i + k := by
  intro l
  induction l with
  | nil => intro i acc j a h; exact Or.inl h
  | cons s rest ih =>
    intro i acc j a h
    simp only [bestShuttleAux] at h
    rcases ih (i + 1) _ j a h with hacc | ⟨k, s', hk, hfit, hj⟩
    · cases hf : is_trip_fit c d s trip with
      | none => rw [hf] at hacc; exact Or.inl hacc
      | some a0 =>
        cases acc with
        | none =>
          rw [hf] at hacc
          simp only [Option.some.injEq, Prod.mk.injEq] at hacc
          right
          exact ⟨0, s, by simp, by rw [hf, hacc.2], by omega⟩
        | some p =>
          obtain ⟨bi, ba⟩ := p
          rw [hf] at hacc
          simp only at hacc
          by_cases hb : is_better c a0 ba trip
          · rw [if_pos hb] at hacc
            simp only [Option.some.injEq, Prod.mk.injEq] at hacc
            right
            exact ⟨0, s, by simp, by rw [hf, hacc.2], by omega⟩
          · rw [if_neg hb] at hacc
            exact Or.inl hacc
    · right
      exact ⟨k + 1, s', by simpa using hk, hfit, by omega⟩

theorem bestShuttle_eq_some {c : Ctx} {d : String → String → Option Int}
    {plan : List ShuttleInfo} {trip : TripInfo} {j : Nat} {a : Int}
    (h : bestShuttle c d plan trip = some (j, a)) :
    ∃ s, plan[j]? = some s ∧ is_trip_fit c d s trip = some a := by
  rcases bestShuttleAux_eq_some c d trip plan 0 none j a h with h' | ⟨k, s, hk, hfit, hj⟩
  · exact absurd h' (by simp)
  · exact ⟨s, by rw [hj]; simpa using hk, hfit⟩

theorem mem_addToShuttle (t : TripInfo) :
    ∀ (plan : List ShuttleInfo) (j : Nat) (s' : ShuttleInfo),
      s' ∈ addToShuttle plan j t →
      s' ∈ plan ∨
        ∃ s, plan[j]? = some s ∧ s' = { s with trips := s.trips ++ [t] } := by
  intro plan
  induction plan with
  | nil => intro j s' h; simp [addToShuttle] at h
  | cons s rest ih =>
    intro j s' h
    cases j with
    | zero =>
      simp only [addToShuttle] at h
      rcases List.mem_cons.mp h with h1 | h2
      · right; exact ⟨s, by simp, h1⟩
      · left; exact List.mem_cons_of_mem _ h2
    | succ j =>
      simp only [addToShuttle] at h
      rcases List.mem_cons.mp h with h1 | h2
      · left; rw [h1]; exact List.mem_cons_self _ _
      · rcases ih j s' h2 with h3 | ⟨s0, hs0, he⟩
        · left; exact List.mem_cons_of_mem _ h3
        · right; exact ⟨s0, by simpa using hs0, he⟩

theorem PlanOK_scheduleTrip (c : Ctx) (d : String → String → Option Int)
    (plan : List ShuttleInfo) (trip : TripInfo) (h : PlanOK c d plan) :
    PlanOK c d (scheduleTrip c d plan trip) := by
  unfold scheduleTrip
  cases hb : bestShuttle c d plan trip with
  | none =>
    intro s' hs'
    rcases List.mem_append.mp hs' with h1 | h2
    · exact h s' h1
    · simp only [List.mem_singleton] at h2
      rw [h2]
      exact List.chain'_singleton _
  | some p =>
    obtain ⟨j, arr⟩ := p
    intro s' hs'
    rcases mem_addToShuttle _ plan j s' hs' with h1 | ⟨s, hsj, he⟩
    · exact h s' h1
    · have hsmem : s ∈ plan := by
        rcases List.getElem?_eq_some_iff.mp hsj with ⟨hlt, hget⟩
        exact hget ▸ List.getElem_mem hlt
      obtain ⟨s0, hs0, hfit⟩ := bestShuttle_eq_some hb
      rw [hsj] at hs0
      obtain rfl : s = s0 := Option.some.inj hs0
      obtain ⟨last, hlast, hok⟩ := is_trip_fit_travelOK hfit
      rw [he]
      apply List.chain'_append.mpr
      refine ⟨h s hsmem, List.chain'_singleton _, ?_⟩
      intro x hx y hy
      simp only [List.head?_cons, Option.mem_def, Option.some.injEq] at hy
      rw [hlast] at hx
      simp only [Option.mem_def, Option.some.injEq] at hx
      subst hx
      subst hy
      exact hok

theorem PlanOK_scheduleTrips (c : Ctx) (d : String → String → Option Int)
    (l : List TripInfo) :
    ∀ plan, PlanOK c d plan → PlanOK c d (scheduleTrips c d plan l) := by
  induction l with
  | nil => intro plan h; exact h
  | cons t rest ih =>
    intro plan h
    simp only [scheduleTrips, List.foldl_cons]
    exact ih _ (PlanOK_scheduleTrip c d plan t h)

theorem PlanOK_calculate (c : Ctx) (d : String → String → Option Int)
    (trips : List TripInfo) : PlanOK c d (calculate c d trips) := by
  unfold calculate get_priority_trips
  simp only [List.foldl_cons, List.foldl_nil]
  have base : PlanOK c d [] := by intro s hs; simp at hs
  exact PlanOK_scheduleTrips c d _ _
    (PlanOK_scheduleTrips c d _ _ (PlanOK_scheduleTrips c d _ _ base))

/-- The adjusted pickup of a placed trip is present and never earlier than
the booked pickup. -/
def AdjustedOK (t : TripInfo) : Prop :=
  ∃ v, t.adjusted_pickup_time = some v ∧ t.pickup_time ≤ v

theorem AdjustedOK_scheduleTrip (c : Ctx) (d : String → String → Option Int)
    (plan : List ShuttleInfo) (trip : TripInfo)
    (h : ∀ t ∈ planTrips plan, AdjustedOK t) :
    ∀ t ∈ planTrips (scheduleTrip c d plan trip), AdjustedOK t := by
  unfold scheduleTrip
  cases hb : bestShuttle c d plan trip with
  | none =>
    intro t ht
    obtain ⟨s', hs', hts⟩ := mem_planTrips.mp ht
    rcases List.mem_append.mp hs' with h1 | h2
    · exact h t (mem_planTrips.mpr ⟨s', h1, hts⟩)
    · simp only [List.mem_singleton] at h2
      rw [h2] at hts
      simp only [List.mem_singleton] at hts
      rw [hts]
      exact ⟨trip.pickup_time, rfl, le_refl _⟩
  | some p =>
    obtain ⟨j, arr⟩ := p
    intro t ht
    obtain ⟨s', hs', hts⟩ := mem_planTrips.mp ht
    rcases mem_addToShuttle _ plan j s' hs' with h1 | ⟨s, hsj, he⟩
    · exact h t (mem_planTrips.mpr ⟨s', h1, hts⟩)
    · have hsmem : s ∈ plan := by
        rcases List.getElem?_eq_some_iff.mp hsj with ⟨hlt, hget⟩
        exact hget ▸ List.getElem_mem hlt
      rw [he] at hts
      rcases List.mem_append.mp hts with h2 | h3
      · exact h t (mem_planTrips.mpr ⟨s, hsmem, h2⟩)
      · simp only [List.mem_singleton] at h3
        rw [h3]
        refine ⟨if arr < trip.pickup_time then trip.pickup_time else arr, rfl, ?_⟩
        by_cases harr : arr < trip.pickup_time
        · rw [if_pos harr]
        · rw [if_neg harr]
          exact le_of_not_lt harr

theorem AdjustedOK_scheduleTrips (c : Ctx) (d : String → String → Option Int)
    (l : List TripInfo) :
    ∀ plan, (∀ t ∈ planTrips plan, AdjustedOK t) →
      ∀ t ∈ planTrips (scheduleTrips c d plan l), AdjustedOK t := by
  induction l with
  | nil => intro plan h; exact h
  | cons x rest ih =>
    intro plan h
    simp only [scheduleTrips, List.foldl_cons]
    exact ih _ (AdjustedOK_scheduleTrip c d plan x h)

theorem AdjustedOK_calculate (c : Ctx) (d : String → String → Option Int)
    (trips : List TripInfo) :
    ∀ t ∈ planTrips (calculate c d trips), AdjustedOK t := by
  unfold calculate get_priority_trips
  simp only [List.foldl_cons, List.foldl_nil]
  have base : ∀ t ∈ planTrips ([] : List ShuttleInfo), AdjustedOK t := by
    intro t ht; simp [planTrips] at ht
  exact AdjustedOK_scheduleTrips c d _ _
    (AdjustedOK_scheduleTrips c d _ _ (AdjustedOK_scheduleTrips c d _ _ base))

/-! ## Verification layer: booking conservation -/

/-- The booking id of a trip record. -/
def bid (t : TripInfo) : String := t.booking.booking_id

theorem planTrips_addToShuttle_perm (t : TripInfo) :
    ∀ (plan : List ShuttleInfo) (j : Nat), j < plan.length →
      (planTrips (addToShuttle plan j t)).Perm (t :: planTrips plan) := by
  intro plan
  induction plan with
  | nil => intro j hj; simp at hj
  | cons s rest ih =>
    intro j hj
    cases j with
    | zero =>
      simp only [addToShuttle, planTrips, List.map_cons, List.flatten_cons]
      rw [List.append_assoc]
      exact List.perm_middle
    | succ j =>
      simp only [addToShuttle, planTrips, List.map_cons, List.flatten_cons]
      have hrec := ih j (by simpa using hj)
      have h1 := hrec.append_left s.trips
      exact h1.trans List.perm_middle

theorem planTrips_append_singleton (plan : List ShuttleInfo) (s : ShuttleInfo) :
    planTrips (plan ++ [s]) = planTrips plan ++ s.trips := by
  simp [planTrips]

theorem scheduleTrip_bids_perm (c : Ctx) (d : String → String → Option Int)
    (plan : List ShuttleInfo) (trip : TripInfo) :
    ((planTrips (scheduleTrip c d plan trip)).map bid).Perm
      (bid trip :: (planTrips plan).map bid) := by
  unfold scheduleTrip
  cases hb : bestShuttle c d plan trip with
  | none =>
    rw [planTrips_append_singleton, List.map_append]
    simp only [List.map_cons, List.map_nil]
    exact List.perm_append_singleton _ _
  | some p =>
    obtain ⟨j, arr⟩ := p
    obtain ⟨s, hsj, -⟩ := bestShuttle_eq_some hb
    have hlt : j < plan.length := (List.getElem?_eq_some_iff.mp hsj).1
    have hperm := planTrips_addToShuttle_perm
      { trip with
        earliest_arrival_time := some arr
        adjusted_pickup_time :=
          some (if arr < trip.pickup_time then trip.pickup_time else arr) }
      plan j hlt
    exact hperm.map bid

theorem scheduleTrips_bids_perm (c : Ctx) (d : String → String → Option Int)
    (l : List TripInfo) :
    ∀ plan, ((planTrips (scheduleTrips c d plan l)).map bid).Perm
      (l.map bid ++ (planTrips plan).map bid) := by
  induction l with
  | nil => intro plan; simp [scheduleTrips]
  | cons t rest ih =>
    intro plan
    simp only [scheduleTrips, List.foldl_cons, List.map_cons, List.cons_append]
    have h1 := ih (scheduleTrip c d plan t)
    have h2 := (scheduleTrip_bids_perm c d plan t).append_left (rest.map bid)
    have h3 : (rest.map bid ++ (bid t :: (planTrips plan).map bid)).Perm
        (bid t :: (rest.map bid ++ (planTrips plan).map bid)) := List.perm_middle
    exact (h1.trans h2).trans h3

theorem booking_applyMarks (lastIds firstIds : List Nat) (p : Nat × TripInfo) :
    (applyMarks lastIds firstIds p).booking = p.2.booking := by
  unfold applyMarks markFirst markLast
  split <;> split <;> rfl

theorem bid_applyMarks (lastIds firstIds : List Nat) (p : Nat × TripInfo) :
    bid (applyMarks lastIds firstIds p) = bid p.2 := by
  unfold bid
  rw [booking_applyMarks]

theorem markLastLeg_bids_perm (trips : List TripInfo) :
    ((markLastLeg trips).map bid).Perm (trips.map bid) := by
  unfold markLastLeg
  have h1 : (List.map bid
      ((List.insertionSort (fun a b => a.pickup_time ≤ b.pickup_time) trips).enum.map
        (applyMarks
          (lastIdsOf (List.insertionSort (fun a b => a.pickup_time ≤ b.pickup_time) trips))
          (firstIdsOf (List.insertionSort (fun a b => a.pickup_time ≤ b.pickup_time) trips))))) =
      (List.insertionSort (fun a b => a.pickup_time ≤ b.pickup_time) trips).map bid := by
    rw [List.map_map]
    have : (bid ∘ applyMarks
          (lastIdsOf (List.insertionSort (fun a b => a.pickup_time ≤ b.pickup_time) trips))
          (firstIdsOf (List.insertionSort (fun a b => a.pickup_time ≤ b.pickup_time) trips))) =
        (bid ∘ Prod.snd) := by
      funext p
      exact bid_applyMarks _ _ p
    rw [this, ← List.map_map, List.enum_map_snd]
  rw [h1]
  exact (List.perm_insertionSort _ trips).map bid

theorem markLastLeg_booking {trips : List TripInfo} {t : TripInfo}
    (ht : t ∈ markLastLeg trips) : ∃ t0 ∈ trips, t.booking = t0.booking := by
  unfold markLastLeg at ht
  obtain ⟨p, hp, hpt⟩ := List.mem_map.mp ht
  have hsnd : p.2 ∈ List.insertionSort (fun a b => a.pickup_time ≤ b.pickup_time) trips := by
    have := List.mem_enum_iff_getElem?.mp hp
    rcases List.getElem?_eq_some_iff.mp this with ⟨hlt, hget⟩
    exact hget ▸ List.getElem_mem hlt
  refine ⟨p.2, (List.perm_insertionSort _ trips).mem_iff.mp hsnd, ?_⟩
  rw [← hpt]
  exact booking_applyMarks _ _ p

theorem priority_buckets_flatten_perm (trips : List TripInfo) :
    (get_priority_trips trips).flatten.Perm trips := by
  unfold get_priority_trips
  simp only [List.flatten_cons, List.flatten_nil, List.append_nil]
  have h0 := List.filter_append_perm (fun t : TripInfo => t.assistance.priority == 0) trips
  have h1 := List.filter_append_perm (fun t : TripInfo => t.assistance.priority == 1)
    (trips.filter (fun t => !(t.assistance.priority == 0)))
  have e1 : List.filter (fun t : TripInfo => t.assistance.priority == 1)
      (trips.filter (fun t => !(t.assistance.priority == 0))) =
      trips.filter (fun t => t.assistance.priority == 1) := by
    rw [List.filter_filter]
    congr 1
    funext t
    cases t.assistance <;> rfl
  have e2 : List.filter (fun t : TripInfo => !(t.assistance.priority == 1))
      (trips.filter (fun t => !(t.assistance.priority == 0))) =
      trips.filter (fun t => t.assistance.priority == 2) := by
    rw [List.filter_filter]
    congr 1
    funext t
    cases t.assistance <;> rfl
  rw [e1, e2] at h1
  exact (h1.append_left
    (trips.filter (fun t => t.assistance.priority == 0))).trans h0

theorem rotate3_perm {α : Type} (A B C : List α) :
    (C ++ (B ++ A)).Perm (A ++ (B ++ C)) := by
  have h1 : (C ++ (B ++ A)).Perm ((B ++ A) ++ C) := List.perm_append_comm
  have h2 : ((B ++ A) ++ C).Perm ((A ++ B) ++ C) :=
    (List.perm_append_comm).append_right C
  have h3 : ((A ++ B) ++ C).Perm (A ++ (B ++ C)) := by
    rw [List.append_assoc]
  exact (h1.trans h2).trans h3

theorem calculate_bids_perm (c : Ctx) (d : String → String → Option Int)
    (trips : List TripInfo) :
    ((planTrips (calculate c d trips)).map bid).Perm (trips.map bid) := by
  unfold calculate get_priority_trips
  simp only [List.foldl_cons, List.foldl_nil]
  set M := markLastLeg trips with hM
  set f0 := M.filter (fun t => t.assistance.priority == 0) with hf0
  set f1 := M.filter (fun t => t.assistance.priority == 1) with hf1
  set f2 := M.filter (fun t => t.assistance.priority == 2) with hf2
  have hb0 := scheduleTrips_bids_perm c d f0 []
  have hb1 := scheduleTrips_bids_perm c d f1 (scheduleTrips c d [] f0)
  have hb2 := scheduleTrips_bids_perm c d f2
    (scheduleTrips c d (scheduleTrips c d [] f0) f1)
  have hempty : (planTrips ([] : List ShuttleInfo)).map bid = [] := by
    simp [planTrips]
  rw [hempty, List.append_nil] at hb0
  have step2 := (hb2.trans (hb1.append_left _)).trans
    ((hb0.append_left _).append_left _)
  have hrot := rotate3_perm (f0.map bid) (f1.map bid) (f2.map bid)
  have hflat := (priority_buckets_flatten_perm M).map bid
  unfold get_priority_trips at hflat
  simp only [List.flatten_cons, List.flatten_nil, List.append_nil,
    List.map_append, ← hf0, ← hf1, ← hf2] at hflat
  exact ((step2.trans hrot).trans hflat).trans (markLastLeg_bids_perm trips)

theorem mem_planTrips_map_bid {plan : List ShuttleInfo} {s : ShuttleInfo}
    {b : String} (hs : s ∈ plan) (hb : b ∈ s.trips.map bid) :
    b ∈ (planTrips plan).map bid := by
  obtain ⟨t, ht, hbt⟩ := List.mem_map.mp hb
  exact List.mem_map.mpr ⟨t, mem_planTrips.mpr ⟨s, hs, ht⟩, hbt⟩

theorem countP_shuttles_of_count_one :
    ∀ (plan : List ShuttleInfo) (b : String),
      ((planTrips plan).map bid).count b = 1 →
      plan.countP (fun s => (s.trips.map bid).contains b) = 1 := by
  intro plan
  induction plan with
  | nil => intro b h; simp [planTrips] at h
  | cons s rest ih =>
    intro b h
    have hsplit : planTrips (s :: rest) = s.trips ++ planTrips rest := by
      simp [planTrips]
    rw [hsplit, List.map_append, List.count_append] at h
    rw [List.countP_cons]
    by_cases hc : (s.trips.map bid).contains b
    · have hmem : b ∈ s.trips.map bid := List.elem_iff.mp hc
      have hpos : 0 < (s.trips.map bid).count b :=
        List.count_pos_iff.mpr hmem
      have hrest0 : ((planTrips rest).map bid).count b = 0 := by omega
      have hs0 : rest.countP (fun s' => (s'.trips.map bid).contains b) = 0 := by
        rw [List.countP_eq_zero]
        intro s' hs' hc'
        have : b ∈ (planTrips rest).map bid :=
          mem_planTrips_map_bid hs' (List.elem_iff.mp hc')
        have := List.count_pos_iff.mpr this
        omega
      rw [hs0, if_pos hc]
    · have hzero : (s.trips.map bid).count b = 0 :=
        List.count_eq_zero.mpr (fun hmem => hc (List.elem_iff.mpr hmem))
      have hrest : ((planTrips rest).map bid).count b = 1 := by omega
      rw [ih b hrest, if_neg hc]

/-- Trips placed by the scheduler carry the booking of one of the input trip
records (the scheduler changes only the scheduling fields, never the
booking). -/
theorem scheduleTrip_booking (c : Ctx) (d : String → String → Option Int)
    (plan : List ShuttleInfo) (trip : TripInfo) (t : TripInfo)
    (ht : t ∈ planTrips (scheduleTrip c d plan trip)) :
    t ∈ planTrips plan ∨ t.booking = trip.booking := by
  unfold scheduleTrip at ht
  cases hb : bestShuttle c d plan trip with
  | none =>
    rw [hb] at ht
    rw [planTrips_append_singleton] at ht
    rcases List.mem_append.mp ht with h1 | h2
    · exact Or.inl h1
    · simp only [List.mem_singleton] at h2
      right; rw [h2]
  | some p =>
    obtain ⟨j, arr⟩ := p
    rw [hb] at ht
    obtain ⟨s', hs', hts⟩ := mem_planTrips.mp ht
    rcases mem_addToShuttle _ plan j s' hs' with h1 | ⟨s, hsj, he⟩
    · exact Or.inl (mem_planTrips.mpr ⟨s', h1, hts⟩)
    · have hsmem : s ∈ plan := by
        rcases List.getElem?_eq_some_iff.mp hsj with ⟨hlt, hget⟩
        exact hget ▸ List.getElem_mem hlt
      rw [he] at hts
      rcases List.mem_append.mp hts with h2 | h3
      · exact Or.inl (mem_planTrips.mpr ⟨s, hsmem, h2⟩)
      · simp only [List.mem_singleton] at h3
        right; rw [h3]

theorem scheduleTrips_booking (c : Ctx) (d : String → String → Option Int)
    (l : List TripInfo) :
    ∀ plan t, t ∈ planTrips (scheduleTrips c d plan l) →
      t ∈ planTrips plan ∨ ∃ t0 ∈ l, t.booking = t0.booking := by
  induction l with
  | nil => intro plan t ht; exact Or.inl ht
  | cons x rest ih =>
    intro plan t ht
    simp only [scheduleTrips, List.foldl_cons] at ht
    rcases ih (scheduleTrip c d plan x) t ht with h1 | ⟨t0, ht0, he⟩
    · rcases scheduleTrip_booking c d plan x t h1 with h2 | h3
      · exact Or.inl h2
      · exact Or.inr ⟨x, List.mem_cons_self _ _, h3⟩
    · exact Or.inr ⟨t0, List.mem_cons_of_mem _ ht0, he⟩

theorem calculate_booking (c : Ctx) (d : String → String → Option Int)
    (trips : List TripInfo) (t : TripInfo)
    (ht : t ∈ planTrips (calculate c d trips)) :
    ∃ t0 ∈ trips, t.booking = t0.booking := by
  unfold calculate get_priority_trips at ht
  simp only [List.foldl_cons, List.foldl_nil] at ht
  have hnil : planTrips ([] : List ShuttleInfo) = [] := by simp [planTrips]
  have hmark : ∀ t', t' ∈ markLastLeg trips →
      ∃ t0 ∈ trips, t'.booking = t0.booking := fun t' h => markLastLeg_booking h
  rcases scheduleTrips_booking c d _ _ t ht with h2 | ⟨t0, ht0, he⟩
  · rcases scheduleTrips_booking c d _ _ t h2 with h3 | ⟨t0, ht0, he⟩
    · rcases scheduleTrips_booking c d _ _ t h3 with h4 | ⟨t0, ht0, he⟩
      · rw [hnil] at h4; simp at h4
      · obtain ⟨t1, ht1, he1⟩ := hmark t0 (List.mem_of_mem_filter ht0)
        exact ⟨t1, ht1, he.trans he1⟩
    · obtain ⟨t1, ht1, he1⟩ := hmark t0 (List.mem_of_mem_filter ht0)
      exact ⟨t1, ht1, he.trans he1⟩
  · obtain ⟨t1, ht1, he1⟩ := hmark t0 (List.mem_of_mem_filter ht0)
    exact ⟨t1, ht1, he.trans he1⟩

theorem chain'_of_getElem? {α : Type} {R : α → α → Prop} :
    ∀ {l : List α}, List.Chain' R l → ∀ {i : Nat} {a b : α},
      l[i]? = some a → l[i + 1]? = some b → R a b := by
  intro l
  induction l with
  | nil => intro _ i a b ha _; simp at ha
  | cons x rest ih =>
    intro h i a b ha hb
    cases i with
    | zero =>
      rw [List.getElem?_cons_zero] at ha
      obtain rfl : x = a := Option.some.inj ha
      rw [List.getElem?_cons_succ] at hb
      have h' := (List.chain'_cons'.mp h).1
      cases rest with
      | nil => simp at hb
      | cons y rest' =>
        rw [List.getElem?_cons_zero] at hb
        obtain rfl : y = b := Option.some.inj hb
        exact h' y rfl
    | succ i =>
      rw [List.getElem?_cons_succ] at ha
      rw [List.getElem?_cons_succ] at hb
      exact ih (List.chain'_cons'.mp h).2 ha hb

/-! ## Shared concrete inputs for witnesses and counterexamples -/

/-- The default context: 300-second allowances throughout. -/
def cEx : Ctx := ⟨300, 300, 300⟩

/-- A concrete booking with the given id, passenger id and addresses. -/
def bookingEx (idstr pid pu du : String) : Booking :=
  { booking_id := idstr, passenger_id := pid, passenger_firstname := "F",
    passenger_lastname := "L", additional_passenger := 0,
    mobility_assistance := [], program_name := "prog", pickup_time := "09:00",
    pickup_address := pu, dropoff_address := du, ride_status := 0 }

/-- Passenger p, pickup 09:00 (32400 s), leg A→B of 600 s. -/
def tripAEx : TripInfo :=
  getTripFromBooking cEx (bookingEx "b1" "p" "A" "B") 32400 ⟨5000, 600⟩

/-- Passenger p, pickup 17:00 (61200 s), leg B→A of 600 s. -/
def tripBEx : TripInfo :=
  getTripFromBooking cEx (bookingEx "b2" "p" "B" "A") 61200 ⟨5000, 600⟩

/-- Passenger p, pickup 09:00 (32400 s), leg A→B of 600 s. -/
def tripPEx : TripInfo :=
  getTripFromBooking cEx (bookingEx "b1" "p" "A" "B") 32400 ⟨5000, 600⟩

/-- Passenger q, pickup 09:20 (33600 s), leg B→C of 600 s. -/
def tripQEx : TripInfo :=
  getTripFromBooking cEx (bookingEx "b2" "q" "B" "C") 33600 ⟨5000, 600⟩

/-- Passenger r, pickup 09:10 (33000 s), leg C→D of 600 s. -/
def tripREx : TripInfo :=
  getTripFromBooking cEx (bookingEx "b3" "r" "C" "D") 33000 ⟨5000, 600⟩

/-- Passenger u, pickup 10:00 (36000 s), leg C→D of 600 s. -/
def tripSEx : TripInfo :=
  getTripFromBooking cEx (bookingEx "b4" "u" "C" "D") 36000 ⟨5000, 600⟩

/-- A routing oracle with zero cross travel everywhere. -/
def travelEx : String → String → Int := fun _ _ => 0

/-- The same oracle in the partial form the code consumes. -/
def dEx0 : String → String → Option Int := fun _ _ => some 0

/-- `tripPEx` after greedy placement (adjusted pickup set to the booking). -/
def tripPPlaced : TripInfo := { tripPEx with adjusted_pickup_time := some 32400 }

/-- `tripQEx` after greedy placement behind `tripPEx` on the same shuttle. -/
def tripQPlaced : TripInfo :=
  { tripQEx with
    adjusted_pickup_time := some 33600
    earliest_arrival_time := some 33300 }

/-- The single shuttle of the P/Q schedule. -/
def shuttleEx : ShuttleInfo := ⟨1, [tripPPlaced, tripQPlaced]⟩

/-! ## Claims -/

/-- C1: for every trip list on which all direction fetches succeed (total
travel oracle), the greedy plan satisfies: in every shuttle, for every pair
of consecutive trips (i, i+1), `trips[i].finish_time` plus the travel
duration from `trips[i]`'s dropoff address to `trips[i+1]`'s pickup address
(zero when the two addresses are equal) is at most
`trips[i+1].latest_pickup_time`. -/
theorem greedy_consecutive_trips_fit (c : Ctx) (travel : String → String → Int)
    (trips : List TripInfo) (s : ShuttleInfo)
    (hs : s ∈ calculate c (fun x y => some (travel x y)) trips)
    (i : Nat) (a b : TripInfo)
    (ha : s.trips[i]? = some a) (hb : s.trips[i + 1]? = some b) :
    finish_time c a +
      (if a.dropoff_address = b.pickup_address then 0
        else travel a.dropoff_address b.pickup_address) ≤
      latest_pickup_time c b := by
  have hchain := PlanOK_calculate c (fun x y => some (travel x y)) trips s hs
  have hok := chain'_of_getElem? hchain ha hb
  unfold travelOK at hok
  by_cases haddr : a.dropoff_address = b.pickup_address
  · rw [if_pos haddr] at hok
    rw [if_pos haddr]
    omega
  · rw [if_neg haddr] at hok
    obtain ⟨dur, hd, hle⟩ := hok
    obtain rfl : travel a.dropoff_address b.pickup_address = dur :=
      Option.some.inj hd
    rw [if_neg haddr]
    exact hle

/-- Witness for C1: two bookings (09:00 A→B and 09:20 B→C, 600 s legs) share
one shuttle, and the consecutive-trip bound holds between them. -/
theorem greedy_consecutive_trips_fit_witness :
    finish_time cEx tripPPlaced +
      (if tripPPlaced.dropoff_address = tripQPlaced.pickup_address then 0
        else travelEx tripPPlaced.dropoff_address tripQPlaced.pickup_address) ≤
      latest_pickup_time cEx tripQPlaced :=
  greedy_consecutive_trips_fit cEx travelEx [tripPEx, tripQEx] shuttleEx
    (by decide) 0 tripPPlaced tripQPlaced (by decide) (by decide)

/-- C2 (code evaluation): on two same-passenger trips at 09:00 and 17:00 the
last-leg marking of `app/services/scheduler/__init__.py` sets
`is_last := true` on the chronologically EARLIEST trip (09:00) and sets the
LATEST trip's `earliest_arrival_time` to its own pickup instant; the latest
trip keeps `is_last = false` and the first trip keeps its initial
`earliest_arrival_time` (pickup − 300).  This contradicts the claim, which
requires the latest trip to be marked and the first trip's
`earliest_arrival_time` to equal its pickup instant. -/
theorem markLastLeg_marks_earliest_trip :
    (markLastLeg [tripAEx, tripBEx]).map
        (fun t => (t.pickup_time, t.is_last, t.earliest_arrival_time)) =
      [(32400, true, some 32100), (61200, false, some 61200)] := by decide

/-- C3: when all booking ids are distinct, every input booking id occurs
exactly once among the trips of the greedy plan, and exactly one shuttle
contains it (no trip is dropped for lack of capacity, none is duplicated). -/
theorem greedy_plan_each_booking_once (c : Ctx)
    (d : String → String → Option Int) (trips : List TripInfo)
    (hnd : (trips.map bid).Nodup) (b : String) (hb : b ∈ trips.map bid) :
    ((planTrips (calculate c d trips)).map bid).count b = 1 ∧
    (calculate c d trips).countP
      (fun s => (s.trips.map bid).contains b) = 1 := by
  have hperm := calculate_bids_perm c d trips
  have hcount : ((planTrips (calculate c d trips)).map bid).count b = 1 := by
    rw [hperm.count_eq]
    exact List.count_eq_one_of_mem hnd hb
  exact ⟨hcount, countP_shuttles_of_count_one _ b hcount⟩

/-- Witness for C3: booking b1 of the two-booking schedule appears exactly
once, in exactly one shuttle. -/
theorem greedy_plan_each_booking_once_witness :
    ((planTrips (calculate cEx dEx0 [tripPEx, tripQEx])).map bid).count "b1" = 1 ∧
    (calculate cEx dEx0 [tripPEx, tripQEx]).countP
      (fun s => (s.trips.map bid).contains "b1") = 1 :=
  greedy_plan_each_booking_once cEx dEx0 [tripPEx, tripQEx]
    (by decide) "b1" (by decide)

/-- C9: every trip placed by the greedy scheduler ends with a present
`adjusted_pickup_time` that is at least its booked pickup instant, so the
emitted scheduled pickup is never earlier than the booked pickup. -/
theorem greedy_adjusted_pickup_not_earlier (c : Ctx)
    (d : String → String → Option Int) (trips : List TripInfo) (t : TripInfo)
    (ht : t ∈ planTrips (calculate c d trips)) :
    ∃ v, t.adjusted_pickup_time = some v ∧ t.pickup_time ≤ v :=
  AdjustedOK_calculate c d trips t ht

/-- Witness for C9: the placed 09:00 trip has adjusted pickup 32400 = its
booked pickup. -/
theorem greedy_adjusted_pickup_not_earlier_witness :
    tripPPlaced.adjusted_pickup_time = some 32400 ∧
      tripPPlaced.pickup_time ≤ 32400 := by
  obtain ⟨v, hv, hle⟩ := greedy_adjusted_pickup_not_earlier cEx dEx0
    [tripPEx, tripQEx] tripPPlaced (by decide)
  have he : tripPPlaced.adjusted_pickup_time = some (32400 : Int) := by decide
  rw [hv] at he
  obtain rfl : v = 32400 := Option.some.inj he
  exact ⟨hv, hle⟩

/-- C10: every Trip emitted from the greedy pipeline contains exactly one
booking, equal to the input booking with precisely these fields changed: the
four actual/driver time fields cleared to none, the two scheduled time
strings set, and the two travel fields set from the fetched direction; every
other field is unchanged. -/
theorem emitted_trip_booking_frame (c : Ctx) (d : String → String → Option Int)
    (inputs : List (Booking × Int × DirectionR)) (t : TripInfo)
    (ht : t ∈ planTrips (calculate c d
      (inputs.map (fun x => getTripFromBooking c x.1 x.2.1 x.2.2)))) :
    ∃ x ∈ inputs,
      (to_trip t).bookings =
        [{ x.1 with
            travel_distance := some x.2.2.distance_in_meter
            travel_time := some x.2.2.duration_in_sec
            actual_pickup_time := none
            actual_dropoff_time := none
            driver_arrival_time := none
            driver_enroute_time := none
            scheduled_pickup_time :=
              some (to_24hr (t.adjusted_pickup_time.getD t.pickup_time))
            scheduled_dropoff_time := some (to_24hr (dropoff_time t)) }] := by
  obtain ⟨t0, ht0, he⟩ := calculate_booking c d _ t ht
  obtain ⟨x, hx, hxe⟩ := List.mem_map.mp ht0
  refine ⟨x, hx, ?_⟩
  have hb : t.booking = { x.1 with
      travel_distance := some x.2.2.distance_in_meter
      travel_time := some x.2.2.duration_in_sec } := by
    rw [he, ← hxe]
    rfl
  have hmk : (to_trip t).bookings = [{ t.booking with
      actual_dropoff_time := none
      actual_pickup_time := none
      driver_arrival_time := none
      driver_enroute_time := none
      scheduled_pickup_time :=
        some (to_24hr (t.adjusted_pickup_time.getD t.pickup_time))
      scheduled_dropoff_time := some (to_24hr (dropoff_time t)) }] := rfl
  rw [hmk, hb]

/-- Witness for C10: running the pipeline on one booking, the emitted
booking equals the input with the eight fields set as stated. -/
theorem emitted_trip_booking_frame_witness :
    (to_trip tripPPlaced).bookings =
      [{ bookingEx "b1" "p" "A" "B" with
          travel_distance := some 5000
          travel_time := some 600
          actual_pickup_time := none
          actual_dropoff_time := none
          driver_arrival_time := none
          driver_enroute_time := none
          scheduled_pickup_time := some "09:00"
          scheduled_dropoff_time := some "09:10" }] := by
  obtain ⟨x, hx, h⟩ := emitted_trip_booking_frame cEx dEx0
    [(bookingEx "b1" "p" "A" "B", 32400, ⟨5000, 600⟩)] tripPPlaced (by decide)
  simp only [List.mem_singleton] at hx
  rw [hx] at h
  exact h.trans (by decide)

/-- C4 counterexample: with one vehicle and trips b = 09:00 (600 s leg) and
a = 09:10, pickup(a) ≥ pickup(b) holds, yet the CP model generates no
connection constraint at all for the pair (the generation is gated on
`latest_pickup_minutes(a) > finish_minutes(b)`, here 550 ≤ 555), so the
claimed constraint is not enforced. -/
theorem cp_nonoverlap_claim_counterexample :
    tripREx.pickup_time ≥ tripPEx.pickup_time ∧
    timeToMinutes tripREx.pickup_time ≥ timeToMinutes tripPEx.pickup_time ∧
    connectionConstraints cEx dEx0 1 [tripPEx, tripREx] = [] := by decide

/-- C4 (amended): for every vehicle v and ordered pair of distinct trips
(j1, j2) such that `latest_pickup` minutes of j2 strictly exceed
`finish_time` minutes of j1 and the cross travel lookup succeeds, the model
contains the constraint
`time[v, j2] ≥ time[v, j1] + (duration(j1) + travel) // 60` (no
dropoff-unloading term); pairs failing the gate are left unconstrained. -/
theorem cp_connection_constraints_enforced (c : Ctx)
    (d : String → String → Option Int) (num_vehicles : Nat)
    (trips : List TripInfo) (v j1 j2 : Nat) (t1 t2 : TripInfo) (dur : Int)
    (hv : v < num_vehicles) (h1 : trips[j1]? = some t1)
    (h2 : trips[j2]? = some t2) (hne : j1 ≠ j2)
    (hcond : timeToMinutes (latest_pickup_time c t2) >
      timeToMinutes (finish_time c t1))
    (hd : d t1.dropoff_address t2.pickup_address = some dur) :
    CpConstraint.mk v j1 j2 ((t1.duration_in_sec + dur).fdiv 60) ∈
      connectionConstraints c d num_vehicles trips := by
  unfold connectionConstraints
  apply List.mem_flatMap.mpr
  refine ⟨v, List.mem_range.mpr hv, ?_⟩
  apply List.mem_flatMap.mpr
  refine ⟨(j1, t1), List.mem_enum_iff_getElem?.mpr h1, ?_⟩
  apply List.mem_filterMap.mpr
  refine ⟨(j2, t2), List.mem_enum_iff_getElem?.mpr h2, ?_⟩
  rw [if_neg hne, if_pos hcond, hd]

/-- Witness for the amended C4: trips 09:00 and 10:00 with a successful
travel lookup produce the connection constraint with service time
(600 + 0) // 60 = 10 minutes. -/
theorem cp_connection_constraints_enforced_witness :
    CpConstraint.mk 0 0 1 10 ∈
      connectionConstraints cEx dEx0 1 [tripPEx, tripSEx] :=
  cp_connection_constraints_enforced cEx dEx0 1 [tripPEx, tripSEx]
    0 0 1 tripPEx tripSEx 0 (by decide) (by decide) (by decide)
    (by decide) (by decide) rfl

/-- C5 counterexample: when the CP solve ends INFEASIBLE, the synchronous
scheduling endpoint returns HTTP 400 with the ValueError message — not a
ScheduleResponse with status "error" and error_code 1. -/
theorem cp_infeasible_http_400_counterexample :
    cp_schedule_endpoint CpStatus.INFEASIBLE [] =
      EndpointResult.httpError 400
        "No feasible solution found, Status: INFEASIBLE" := rfl

/-- C5 (amended): for every terminal status other than OPTIMAL and FEASIBLE
(INFEASIBLE, MODEL_INVALID, UNKNOWN — a timeout surfaces as UNKNOWN), the CP
scheduler raises ValueError and the endpoint surfaces HTTP 400 with the
message; no error-status ScheduleResponse is produced. -/
theorem cp_no_solution_http_400 (status : CpStatus)
    (shuttles : List ShuttleInfo) (h1 : status ≠ CpStatus.OPTIMAL)
    (h2 : status ≠ CpStatus.FEASIBLE) :
    cp_schedule_endpoint status shuttles =
      EndpointResult.httpError 400
        ("No feasible solution found, Status: " ++ status.name) := by
  unfold cp_schedule_endpoint cpSolveShuttles schedule_endpoint
  rw [if_neg (by intro h; rcases h with h | h; exact h1 h; exact h2 h)]

/-- Witness for the amended C5: the MODEL_INVALID status yields HTTP 400. -/
theorem cp_no_solution_http_400_witness :
    cp_schedule_endpoint CpStatus.MODEL_INVALID [] =
      EndpointResult.httpError 400
        "No feasible solution found, Status: MODEL_INVALID" :=
  (cp_no_solution_http_400 CpStatus.MODEL_INVALID [] (by decide)
    (by decide)).trans (by decide)

/-- C6: the composite direction fetch first performs a cache lookup; on a
hit it returns the cached pair, leaves the cache unchanged, and does not
call the provider; on a miss with a non-empty provider reply it stores the
first leg's pair (via the keyed upsert) and returns it; on a miss with an
empty reply it fails with the NoRoute ValueError and the cache state is
unchanged. -/
theorem get_direction_cache_contract (store : List CacheEntry)
    (provider : List Leg) (origin destination : String) (now : Int) :
    (∀ cached, crud_get_direction store origin destination = some cached →
      get_direction store provider origin destination now =
        (.ok cached, store, false)) ∧
    (crud_get_direction store origin destination = none →
      ∀ leg rest, provider = leg :: rest →
        get_direction store provider origin destination now =
          (.ok ⟨leg.distance, leg.duration⟩,
           crud_create_direction store origin destination
             leg.distance leg.duration now, true)) ∧
    (crud_get_direction store origin destination = none → provider = [] →
      get_direction store provider origin destination now =
        (.error "No route found between the specified locations",
         store, true)) := by
  refine ⟨?_, ?_, ?_⟩
  · intro cached hcached
    unfold get_direction
    rw [hcached]
  · intro hmiss leg rest hp
    unfold get_direction
    rw [hmiss, hp]
  · intro hmiss hp
    unfold get_direction
    rw [hmiss, hp]

/-- Witness for C6: the three branches evaluated at concrete stores —
a hit returns the cached pair without a provider call; a miss with an empty
reply errors with the cache untouched; a miss with a leg stores it. -/
theorem get_direction_cache_contract_witness :
    get_direction [⟨"A|B", 5000, 600, 0⟩] [⟨1, 1⟩] "A" "B" 100 =
      (.ok ⟨5000, 600⟩, [⟨"A|B", 5000, 600, 0⟩], false) ∧
    get_direction [] [] "A" "B" 100 =
      (.error "No route found between the specified locations", [], true) ∧
    get_direction [] [⟨7000, 900⟩] "A" "B" 100 =
      (.ok ⟨7000, 900⟩, [⟨"A|B", 7000, 900, 100⟩], true) := by
  refine ⟨?_, ?_, ?_⟩
  · exact (get_direction_cache_contract [⟨"A|B", 5000, 600, 0⟩] [⟨1, 1⟩]
      "A" "B" 100).1 ⟨5000, 600⟩ (by decide)
  · exact (get_direction_cache_contract [] [] "A" "B" 100).2.2 rfl rfl
  · exact ((get_direction_cache_contract [] [⟨7000, 900⟩] "A" "B" 100).2.1
      rfl ⟨7000, 900⟩ [] rfl).trans (by rfl)

/-- C7 counterexample: an entry written at t0 = 0 is still a hit when read
at t0 + TTL + 1 — the read path performs no TTL comparison, so the claim's
"miss strictly after t0 + TTL" fails while the entry is still present. -/
theorem direction_ttl_read_counterexample :
    lookup_at [⟨"A|B", 5000, 600, 0⟩] "A" "B"
      (0 + DIRECTION_CACHE_TTL_SECONDS + 1) = some ⟨5000, 600⟩ := rfl

/-- C7 (amended): the cache read applies no TTL check — reading at any
instant equals the plain keyed lookup, whatever the entry's age; the read
becomes a miss only once the backing store's TTL reaper has removed the
entry, which is guaranteed as soon as every entry under the key has
exceeded the TTL. -/
theorem direction_lookup_ignores_ttl (store : List CacheEntry)
    (origin destination : String) (now : Int)
    (hexp : ∀ e ∈ store, e.key = generate_key origin destination →
      e.created_at + DIRECTION_CACHE_TTL_SECONDS ≤ now) :
    lookup_at store origin destination now =
      crud_get_direction store origin destination ∧
    lookup_at (reap_expired DIRECTION_CACHE_TTL_SECONDS now store)
      origin destination now = none := by
  constructor
  · rfl
  · unfold lookup_at crud_get_direction reap_expired
    cases hf : List.find?
        (fun e => e.key == generate_key origin destination)
        (store.filter
          (fun e => decide (now < e.created_at + DIRECTION_CACHE_TTL_SECONDS)))
      with
    | none => rfl
    | some e =>
      exfalso
      have hmem := List.mem_of_find?_eq_some hf
      have hkey := List.find?_some hf
      simp only [beq_iff_eq] at hkey
      rw [List.mem_filter] at hmem
      have h1 := hexp e hmem.1 hkey
      have h2 : now < e.created_at + DIRECTION_CACHE_TTL_SECONDS := by
        simpa using hmem.2
      omega

/-- Witness for the amended C7: after the reaper runs at instant 4000 on a
store holding only an entry created at 0, the read misses. -/
theorem direction_lookup_ignores_ttl_witness :
    lookup_at (reap_expired DIRECTION_CACHE_TTL_SECONDS 4000
      [⟨"A|B", 5000, 600, 0⟩]) "A" "B" 4000 = none :=
  (direction_lookup_ignores_ttl [⟨"A|B", 5000, 600, 0⟩] "A" "B" 4000
    (by decide)).2

/-- C8 counterexample: `get_pending_tasks` runs its find and its update as
two separate store operations, so in the interleaving where both finds run
before either update, two concurrent claims of a single PENDING task both
return it — the returned id sets are not disjoint. -/
theorem claim_batch_interleaved_overlap :
    (claim_batch_interleaved [⟨"t1", TaskStatus.PENDING⟩] 10 10).1 = ["t1"] ∧
    (claim_batch_interleaved [⟨"t1", TaskStatus.PENDING⟩] 10 10).2.1 =
      ["t1"] := by decide

/-- C8 (amended): `get_pending_tasks` selects up to `limit` PENDING tasks
and then marks them PROCESSING in a second store operation; when the two
calls run sequentially (the second's find after the first's update), the
returned id sets are disjoint, because every id returned by the first call
has been moved to PROCESSING. -/
theorem mem_find_pending_ids {store : List Task} {limit : Nat} {i : String}
    (h : i ∈ find_pending_ids store limit) :
    ∃ t ∈ store, t.id = i ∧ t.status = TaskStatus.PENDING := by
  unfold find_pending_ids at h
  obtain ⟨t, ht, hid⟩ := List.mem_map.mp h
  have htf := List.mem_of_mem_take ht
  rw [List.mem_filter] at htf
  exact ⟨t, htf.1, hid, by simpa using htf.2⟩

theorem claim_batch_sequential_disjoint (store : List Task)
    (limit1 limit2 : Nat) (i : String)
    (h1 : i ∈ (get_pending_tasks store limit1).1) :
    i ∉ (get_pending_tasks (get_pending_tasks store limit1).2 limit2).1 := by
  intro h2
  simp only [get_pending_tasks] at h1 h2
  obtain ⟨t, htm, hid, hstat⟩ := mem_find_pending_ids h2
  unfold mark_processing at htm
  obtain ⟨t0, ht0, he⟩ := List.mem_map.mp htm
  by_cases hc : (find_pending_ids store limit1).contains t0.id
  · rw [if_pos hc] at he
    rw [← he] at hstat
    simp at hstat
  · rw [if_neg hc] at he
    rw [← he] at hid
    exact hc (List.elem_iff.mpr (hid ▸ h1))

/-- Witness for the amended C8: with two PENDING tasks and batch size 1,
the first claim returns t1 and the second, run after the first's update,
cannot return it. -/
theorem claim_batch_sequential_disjoint_witness :
    "t1" ∉ (get_pending_tasks
      (get_pending_tasks
        [⟨"t1", TaskStatus.PENDING⟩, ⟨"t2", TaskStatus.PENDING⟩] 1).2 1).1 :=
  claim_batch_sequential_disjoint
    [⟨"t1", TaskStatus.PENDING⟩, ⟨"t2", TaskStatus.PENDING⟩] 1 1 "t1"
    (by decide)

end OrtoolsPoc
